import Mathlib

/-!
# backend-e-commerce: a shallow embedding of `server.js`

The Express application of `src/server.js` is embedded as pure functions on an
explicit store.  Every route handler becomes a function
`Store → Response × Store`; the guard `authenticateToken` becomes a function
from the `Authorization` header to either a rejection or the decoded user.

Outside `src/` and therefore taken as inputs of the model:

* the Prisma schema (the entity records below follow section 3 of the
  specification);
* the libraries `jsonwebtoken` and `bcrypt` (records of functions, `JwtLib`
  and `BcryptLib`);
* the media host `imagekit` (the outcome of an upload is an ambient input);
* the clock and the salt generator (ambient inputs of a request).

Request bodies are taken well typed: strings are strings and numbers are
integers that a JavaScript number holds.  A path parameter is the result of
`parseInt`, with `none` standing for `NaN`.
-/

namespace Shop

/-! ## JSON values and responses -/

/-- JSON values as produced by `res.json`.  A `float` is the finite double
`mant * 2 ^ exp`; it is only carried, never computed with. -/
inductive Json where
  | null
  | num (n : Int)
  | float (mant : Int) (exp : Int)
  | str (s : String)
  | arr (xs : List Json)
  | obj (kvs : List (String × Json))

/-- The body of an HTTP response: a JSON document (`res.json`) or plain text
(`res.send`, `res.sendStatus`). -/
inductive Body where
  | json (j : Json)
  | text (s : String)

/-- An HTTP response: status code and body. -/
structure Response where
  status : Nat
  body : Body

/-- The object `{ message: m }`. -/
def messageObj (m : String) : Json :=
  Json.obj [("message", Json.str m)]

/-- Response of `res.status(code).json({ message: m })`. -/
def messageResponse (code : Nat) (m : String) : Response :=
  ⟨code, Body.json (messageObj m)⟩

/-- A response is an error response when its status is 400 or above. -/
def Response.isError (r : Response) : Prop :=
  400 ≤ r.status

/-- The body is a JSON object whose only field is a `message` string. -/
def Body.IsMessageOnly (b : Body) : Prop :=
  ∃ m : String, b = Body.json (Json.obj [("message", Json.str m)])

/-! ## Entities -/

/-- Modelled from the spec: the `User` entity of the Prisma schema, which is not
under `src/` (section 3: id, name, email, password hash). -/
structure User where
  id : Int
  name : String
  email : String
  password : String
  deriving DecidableEq, Repr

/-- A finite IEEE double `mant * 2 ^ exp`, the result of `parseFloat`. -/
structure JsFloat where
  mant : Int
  exp : Int
  deriving DecidableEq, Repr

/-- Modelled from the spec: the `Product` entity of the Prisma schema, which is
not under `src/` (section 3; the fields written by `POST /products` plus the id
and the creation time set by the store). -/
structure Product where
  id : Int
  name : String
  description : String
  price : JsFloat
  stock : Int
  category : String
  imageUrl : Option String
  createdAt : Nat
  deriving DecidableEq, Repr

/-- Modelled from the spec: the `Cart` entity of the Prisma schema, which is not
under `src/` (section 3: id and the owning user). -/
structure Cart where
  id : Int
  userId : Int
  deriving DecidableEq, Repr

/-- Modelled from the spec: the `CartItem` entity of the Prisma schema, which is
not under `src/` (section 3: id, cart, product, quantity).  The quantity is an
integer; the store does not check its sign (section 4.3). -/
structure CartItem where
  id : Int
  cartId : Int
  productId : Int
  quantity : Int
  deriving DecidableEq, Repr

/-- The relational store behind `db`: the four tables in insertion order and the
auto-increment counter of each. -/
structure Store where
  users : List User
  products : List Product
  carts : List Cart
  cartItems : List CartItem
  nextUserId : Int
  nextProductId : Int
  nextCartId : Int
  nextCartItemId : Int
  deriving DecidableEq, Repr

/-- The store of a fresh deployment. -/
def Store.empty : Store :=
  ⟨[], [], [], [], 1, 1, 1, 1⟩

/-! ## External libraries and ambient inputs -/

/-- The payload of a bearer token: what `jwt.sign` is given (`id`, `email`) plus
the issue time the library adds. -/
structure Claims where
  id : Int
  email : String
  iat : Nat
  deriving DecidableEq, Repr

/-- The two functions of `jsonwebtoken` that the server calls.  `verify`
returns `none` where the library passes an error to the callback. -/
structure JwtLib where
  sign : Claims → String → String
  verify : String → String → Option Claims

/-- The two functions of `bcrypt` that the server calls.  `hash` takes the
password, the cost factor and the salt entropy drawn for this call. -/
structure BcryptLib where
  hash : String → Nat → Nat → String
  compare : String → String → Bool

/-- What the deployment fixes: the two libraries and the configuration of the
store, which is not under `src/`: the character folding of its collation (the
identity for a case-sensitive store), the escape character of its `LIKE`
operator (`none` when it has none) and the rows of the cart item table it accepts
(column ranges and foreign keys; a rejected write throws). -/
structure Libs where
  jw : JwtLib
  bc : BcryptLib
  fold : Char → Char
  escape : Option Char
  acceptsItem : Store → CartItem → Bool

/-- What a single request draws from its environment: the clock, the salt
entropy and the outcome of `imagekit.upload` (`none`: the upload throws). -/
structure Ambient where
  now : Nat
  salt : Nat
  upload : Option String

/-- The signing secret written in `server.js`. -/
def secretKey : String := "papb_bisdig"

/-! ## The guard `authenticateToken` -/

/-- JavaScript `s.split(" ")` on the characters of `s`. -/
def splitBlank : List Char → List (List Char)
  | [] => [[]]
  | c :: cs =>
    if c = ' ' then [] :: splitBlank cs
    else
      match splitBlank cs with
      | [] => [[c]]
      | w :: ws => (c :: w) :: ws

/-- The expression `authHeader.split(" ")[1]`; `none` is `undefined`. -/
def tokenOf (authHeader : String) : Option String :=
  ((splitBlank authHeader.toList).get? 1).map String.mk

/-- Outcome of the guard: it answers itself, or it calls `next` with
`req.user` set. -/
inductive GuardResult where
  | reject (r : Response)
  | next (user : Claims)

/-- The function `authenticateToken`.  The header is `none` when absent; an
empty header is falsy as well.  `jwt.verify(undefined, ...)` reports an error. -/
def authenticateToken (jw : JwtLib) (authHeader : Option String) : GuardResult :=
  match authHeader with
  | none => GuardResult.reject (messageResponse 401 "Token is required")
  | some h =>
    if h = "" then GuardResult.reject (messageResponse 401 "Token is required")
    else
      match (tokenOf h).bind (fun t => jw.verify t secretKey) with
      | none => GuardResult.reject ⟨403, Body.text "Forbidden"⟩
      | some user => GuardResult.next user

/-! ## Queries of the persistence layer -/

/-- The query `db.user.findUnique({ where: { email } })`. -/
def findUserByEmail (s : Store) (email : String) : Option User :=
  s.users.find? (fun u => decide (u.email = email))

/-- The query `db.product.findUnique({ where: { id } })`. -/
def findProduct (s : Store) (id : Int) : Option Product :=
  s.products.find? (fun p => decide (p.id = id))

/-- The query `db.cart.findFirst({ where: { userId } })`. -/
def findCart (s : Store) (userId : Int) : Option Cart :=
  s.carts.find? (fun c => decide (c.userId = userId))

/-- The query `db.cartItem.findFirst({ where: { cartId, productId } })`. -/
def findItemByProduct (s : Store) (cartId productId : Int) : Option CartItem :=
  s.cartItems.find? (fun i => decide (i.cartId = cartId ∧ i.productId = productId))

/-- The query `db.cartItem.findFirst({ where: { cartId, id } })`. -/
def findItemById (s : Store) (cartId id : Int) : Option CartItem :=
  s.cartItems.find? (fun i => decide (i.cartId = cartId ∧ i.id = id))

/-- A token of a `LIKE` pattern: `%` (any run of characters), `_` (any one
character) or a character to be matched as it is. -/
inductive LikeTok where
  | any
  | one
  | lit (c : Char)
  deriving DecidableEq, Repr

/-- Reading of a `LIKE` pattern.  The flag says that the previous character was
the escape character, which makes the next one a plain character. -/
def likeTokensAux (fold : Char → Char) (escape : Option Char) :
    Bool → List Char → List LikeTok
  | _, [] => []
  | true, c :: cs => LikeTok.lit (fold c) :: likeTokensAux fold escape false cs
  | false, c :: cs =>
    if c = '%' then LikeTok.any :: likeTokensAux fold escape false cs
    else if c = '_' then LikeTok.one :: likeTokensAux fold escape false cs
    else if escape = some c then likeTokensAux fold escape true cs
    else LikeTok.lit (fold c) :: likeTokensAux fold escape false cs

/-- Matching of a text against a tokenised `LIKE` pattern. -/
def likeMatch : List LikeTok → List Char → Bool
  | [], text => text.isEmpty
  | LikeTok.any :: ts, text => text.tails.any (fun t => likeMatch ts t)
  | LikeTok.one :: ts, text =>
    match text with
    | [] => false
    | _ :: rest => likeMatch ts rest
  | LikeTok.lit c :: ts, text =>
    match text with
    | [] => false
    | d :: rest => decide (c = d) && likeMatch ts rest

/-- The filter `name: { contains: search }`: Prisma sends the condition
`name LIKE '%' + search + '%'` with the term as it is, so a `%` or `_` inside
the term is a wildcard of the pattern. -/
def nameContains (fold : Char → Char) (escape : Option Char) (search : String)
    (p : Product) : Bool :=
  likeMatch (likeTokensAux fold escape false ('%' :: search.toList ++ ['%']))
    (p.name.toList.map fold)

/-- The clause `orderBy: { createdAt: "desc" }`. -/
def orderByCreatedAtDesc (ps : List Product) : List Product :=
  ps.insertionSort (fun a b => b.createdAt ≤ a.createdAt)

/-! ## JSON renderings -/

/-- The summary `{ id, name, email }` of a user. -/
def userSummary (u : User) : Json :=
  Json.obj [("id", Json.num u.id), ("name", Json.str u.name), ("email", Json.str u.email)]

/-- An optional string as JSON. -/
def optStr : Option String → Json
  | none => Json.null
  | some s => Json.str s

/-- A product row as JSON. -/
def productJson (p : Product) : Json :=
  Json.obj
    [("id", Json.num p.id), ("name", Json.str p.name),
     ("description", Json.str p.description),
     ("price", Json.float p.price.mant p.price.exp), ("stock", Json.num p.stock),
     ("category", Json.str p.category), ("imageUrl", optStr p.imageUrl),
     ("createdAt", Json.num p.createdAt)]

/-- A cart item joined with its product (`include: { product: true }`). -/
def cartRowJson (row : CartItem × Option Product) : Json :=
  Json.obj
    [("id", Json.num row.1.id), ("cartId", Json.num row.1.cartId),
     ("productId", Json.num row.1.productId), ("quantity", Json.num row.1.quantity),
     ("product", match row.2 with
                 | none => Json.null
                 | some p => productJson p)]

/-! ## Writes of the persistence layer -/

/-- The write `db.user.create({ data })`: the store assigns the next id. -/
def createUser (s : Store) (name email password : String) : User × Store :=
  let user : User := ⟨s.nextUserId, name, email, password⟩
  (user, { s with users := s.users ++ [user], nextUserId := s.nextUserId + 1 })

/-- The write `db.product.create({ data })`: the store assigns the next id and
the creation time. -/
def createProductRow (s : Store) (now : Nat) (name description : String) (price : JsFloat)
    (stock : Int) (category : String) (imageUrl : Option String) : Product × Store :=
  let product : Product :=
    ⟨s.nextProductId, name, description, price, stock, category, imageUrl, now⟩
  (product, { s with products := s.products ++ [product], nextProductId := s.nextProductId + 1 })

/-- The write `db.cart.create({ data: { userId } })`. -/
def createCart (s : Store) (userId : Int) : Cart × Store :=
  let cart : Cart := ⟨s.nextCartId, userId⟩
  (cart, { s with carts := s.carts ++ [cart], nextCartId := s.nextCartId + 1 })

/-- The write `db.cartItem.create({ data: { cartId, productId, quantity } })`.
The store checks neither that the product exists nor the sign of the quantity
(section 4.3 of the specification). -/
def createItem (s : Store) (cartId productId quantity : Int) : Store :=
  { s with
    cartItems := s.cartItems ++ [⟨s.nextCartItemId, cartId, productId, quantity⟩]
    nextCartItemId := s.nextCartItemId + 1 }

/-- The write `db.cartItem.update({ where: { id }, data: { quantity } })`. -/
def updateItemQuantity (s : Store) (id quantity : Int) : Store :=
  { s with
    cartItems := s.cartItems.map
      (fun i => if i.id = id then { i with quantity := quantity } else i) }

/-- The write `db.cartItem.deleteMany({ where: { productId } })`. -/
def deleteItemsOfProduct (s : Store) (productId : Int) : Store :=
  { s with cartItems := s.cartItems.filter (fun i => decide (i.productId ≠ productId)) }

/-- The write `db.product.delete({ where: { id } })`. -/
def deleteProductRow (s : Store) (id : Int) : Store :=
  { s with products := s.products.filter (fun p => decide (p.id ≠ id)) }

/-- The write `db.cartItem.delete({ where: { id } })`. -/
def deleteItem (s : Store) (id : Int) : Store :=
  { s with cartItems := s.cartItems.filter (fun i => decide (i.id ≠ id)) }

/-! ## Route handlers -/

/-- Handler of `POST /register`. -/
def register (bc : BcryptLib) (amb : Ambient) (s : Store) (name email password : String) :
    Response × Store :=
  match findUserByEmail s email with
  | some _ => (messageResponse 400 "Email already in use", s)
  | none =>
    let hashedPassword := bc.hash password 10 amb.salt
    let created := createUser s name email hashedPassword
    (⟨201, Body.json (Json.obj
        [("message", Json.str "User registered"), ("user", userSummary created.1)])⟩,
     created.2)

/-- The call `jwt.sign({ id: user.id, email: user.email }, "papb_bisdig")`. -/
def issueToken (jw : JwtLib) (user : User) (now : Nat) : String :=
  jw.sign ⟨user.id, user.email, now⟩ secretKey

/-- Handler of `POST /login`. -/
def login (L : Libs) (amb : Ambient) (s : Store) (email password : String) :
    Response × Store :=
  match findUserByEmail s email with
  | none => (messageResponse 400 "Invalid email or password", s)
  | some user =>
    if L.bc.compare password user.password = false then
      (messageResponse 400 "Invalid email or password", s)
    else
      (⟨200, Body.json (Json.obj
          [("message", Json.str "Login successful"),
           ("token", Json.str (issueToken L.jw user amb.now)),
           ("user", userSummary user)])⟩,
       s)

/-- The file part of a multipart request (`req.file`). -/
structure UploadedFile where
  originalname : String
  buffer : List Nat

/-- The body of `POST /products` after `parseFloat(price)` and
`parseInt(stock)`; `none` is a result that is not a finite number. -/
structure ProductBody where
  name : String
  description : String
  price : Option JsFloat
  stock : Option Int
  category : String
  file : Option UploadedFile

/-- Handler of `POST /products`.  A failed upload and a write the store rejects
(a price or stock that is not a number) both end in the `catch` branch. -/
def createProduct (amb : Ambient) (s : Store) (b : ProductBody) : Response × Store :=
  let image : Option (Option String) :=
    match b.file with
    | none => some none
    | some _ => amb.upload.map some
  match image, b.price, b.stock with
  | some imageUrl, some price, some stock =>
    let created :=
      createProductRow s amb.now b.name b.description price stock b.category imageUrl
    (⟨201, Body.json (productJson created.1)⟩, created.2)
  | _, _, _ => (messageResponse 500 "Gagal menambahkan produk.", s)

/-- The rows `db.product.findMany` selects: all of them when `search` is absent
or empty (both falsy), otherwise those whose name contains it. -/
def selectProducts (fold : Char → Char) (escape : Option Char) (s : Store)
    (search : Option String) : List Product :=
  match search with
  | none => s.products
  | some q => if q = "" then s.products else s.products.filter (nameContains fold escape q)

/-- The result of `db.product.findMany({ where, orderBy })` in `GET /products`. -/
def findProducts (fold : Char → Char) (escape : Option Char) (s : Store)
    (search : Option String) : List Product :=
  orderByCreatedAtDesc (selectProducts fold escape s search)

/-- Handler of `GET /products`. -/
def listProducts (fold : Char → Char) (escape : Option Char) (s : Store)
    (search : Option String) : Response × Store :=
  (⟨200, Body.json (Json.obj
      [("message", Json.str "Berhasil"),
       ("data", Json.arr ((findProducts fold escape s search).map productJson))])⟩,
   s)

/-- Handler of `DELETE /products/:id`; `id` is `parseInt(req.params.id)`. -/
def deleteProduct (s : Store) (id : Option Int) : Response × Store :=
  match id with
  | none => (messageResponse 500 "Gagal menghapus produk.", s)
  | some pid =>
    match findProduct s pid with
    | none => (messageResponse 404 "Produk tidak ditemukan.", s)
    | some _ =>
      (messageResponse 200 "Produk berhasil dihapus.",
       deleteProductRow (deleteItemsOfProduct s pid) pid)

/-- The first half of `POST /cart/add`: the user's cart, created when absent. -/
def findOrCreateCart (s : Store) (userId : Int) : Cart × Store :=
  match findCart s userId with
  | some cart => (cart, s)
  | none => createCart s userId

/-- Number of binary digits of `n`, computed with `fuel` halvings. -/
def bitLengthAux : Nat → Nat → Nat
  | 0, _ => 0
  | fuel + 1, n => if n = 0 then 0 else bitLengthAux fuel (n / 2) + 1

/-- Number of binary digits of `n`. -/
def bitLength (n : Nat) : Nat :=
  bitLengthAux n n

/-- The integer nearest to `x` that an IEEE double holds: `x` itself below
`2 ^ 53` in absolute value, otherwise `x` rounded to 53 significant binary
digits, ties to the even significand. -/
def roundToDouble (x : Int) : Int :=
  let n := x.natAbs
  if n < 2 ^ 53 then x
  else
    let e := bitLength n - 53
    let q := n / 2 ^ e
    let r := n % 2 ^ e
    let q1 := if 2 ^ (e - 1) < r ∨ (r = 2 ^ (e - 1) ∧ q % 2 = 1) then q + 1 else q
    if 0 ≤ x then ((q1 * 2 ^ e : Nat) : Int) else -((q1 * 2 ^ e : Nat) : Int)

/-- The bound `2 ^ 1024` from which a double is an infinity. -/
def doubleLimit : Nat :=
  2 ^ 256 * 2 ^ 256 * 2 ^ 256 * 2 ^ 256

/-- JavaScript `a + b` on two numbers that are integers: the exact sum rounded
to a double; `none` is an infinite result. -/
def jsAdd (a b : Int) : Option Int :=
  let r := roundToDouble (a + b)
  if r.natAbs < doubleLimit then some r else none

/-- An integer that a JavaScript number holds exactly, as a request body or a row
read from the store delivers it. -/
def IsJsInteger (q : Int) : Prop :=
  roundToDouble q = q ∧ q.natAbs < doubleLimit

instance (q : Int) : Decidable (IsJsInteger q) := by
  unfold IsJsInteger; infer_instance

/-- Handler of `POST /cart/add` behind the guard; `userId` is `req.user.id`,
`productId` and `quantity` are the numbers of the request body.  The new
quantity is the JavaScript sum of line 198.  A write the store rejects (and a
sum that is not finite, which no column takes) throws, and the `catch` branch
answers 500; a cart created before stays. -/
def addToCart (accepts : Store → CartItem → Bool) (s : Store)
    (userId productId quantity : Int) : Response × Store :=
  let found := findOrCreateCart s userId
  let cart := found.1
  let s1 := found.2
  match findItemByProduct s1 cart.id productId with
  | some existingItem =>
    match jsAdd existingItem.quantity quantity with
    | some total =>
      if accepts s1 { existingItem with quantity := total } then
        (messageResponse 200 "Produk berhasil ditambahkan ke keranjang.",
         updateItemQuantity s1 existingItem.id total)
      else (messageResponse 500 "Gagal menambahkan produk ke keranjang.", s1)
    | none => (messageResponse 500 "Gagal menambahkan produk ke keranjang.", s1)
  | none =>
    if accepts s1 ⟨s1.nextCartItemId, cart.id, productId, quantity⟩ then
      (messageResponse 200 "Produk berhasil ditambahkan ke keranjang.",
       createItem s1 cart.id productId quantity)
    else (messageResponse 500 "Gagal menambahkan produk ke keranjang.", s1)

/-- The rows `db.cartItem.findMany({ where: { cartId }, include: { product } })`. -/
def cartRows (s : Store) (cartId : Int) : List (CartItem × Option Product) :=
  (s.cartItems.filter (fun i => decide (i.cartId = cartId))).map
    (fun i => (i, findProduct s i.productId))

/-- The items `GET /cart` lists for a user: none without a cart. -/
def cartView (s : Store) (userId : Int) : List (CartItem × Option Product) :=
  match findCart s userId with
  | none => []
  | some cart => cartRows s cart.id

/-- Handler of `GET /cart` behind the guard. -/
def getCart (s : Store) (userId : Int) : Response × Store :=
  match findCart s userId with
  | none => (⟨200, Body.json (Json.arr [])⟩, s)
  | some cart =>
    (⟨200, Body.json (Json.obj
        [("message", Json.str "Berhasil"),
         ("data", Json.arr ((cartRows s cart.id).map cartRowJson))])⟩,
     s)

/-- Handler of `DELETE /cart/remove/:productId` behind the guard; `param` is
`parseInt(req.params.productId)` and is matched against the id of a cart item. -/
def removeFromCart (s : Store) (userId : Int) (param : Option Int) : Response × Store :=
  match findCart s userId with
  | none => (messageResponse 404 "Keranjang tidak ditemukan.", s)
  | some cart =>
    match param with
    | none => (messageResponse 500 "Gagal menghapus produk dari keranjang.", s)
    | some id =>
      match findItemById s cart.id id with
      | none => (messageResponse 404 "Produk tidak ada di keranjang.", s)
      | some cartItem =>
        (messageResponse 200 "Produk berhasil dihapus dari keranjang.",
         deleteItem s cartItem.id)

/-- Handler of `GET /test`. -/
def test (s : Store) : Response × Store :=
  (⟨200, Body.text "Connect Success"⟩, s)

/-! ## The application as a step function -/

/-- A request to one of the routes of `server.js`. -/
inductive Request where
  | register (name email password : String)
  | login (email password : String)
  | createProduct (b : ProductBody)
  | listProducts (search : Option String)
  | deleteProduct (id : Option Int)
  | addToCart (authorization : Option String) (productId quantity : Int)
  | getCart (authorization : Option String)
  | removeFromCart (authorization : Option String) (param : Option Int)
  | test

/-- A protected route: the guard first, the handler only after `next`. -/
def guarded (jw : JwtLib) (authorization : Option String) (s : Store)
    (handler : Claims → Response × Store) : Response × Store :=
  match authenticateToken jw authorization with
  | GuardResult.reject r => (r, s)
  | GuardResult.next user => handler user

/-- One request served to completion. -/
def step (L : Libs) (amb : Ambient) (s : Store) : Request → Response × Store
  | Request.register name email password => register L.bc amb s name email password
  | Request.login email password => login L amb s email password
  | Request.createProduct b => createProduct amb s b
  | Request.listProducts search => listProducts L.fold L.escape s search
  | Request.deleteProduct id => deleteProduct s id
  | Request.addToCart authorization productId quantity =>
    guarded L.jw authorization s
      (fun user => addToCart L.acceptsItem s user.id productId quantity)
  | Request.getCart authorization =>
    guarded L.jw authorization s (fun user => getCart s user.id)
  | Request.removeFromCart authorization param =>
    guarded L.jw authorization s (fun user => removeFromCart s user.id param)
  | Request.test => test s

/-- A run of requests served one after the other, each with its own ambient
inputs. -/
def run (L : Libs) (s : Store) : List (Ambient × Request) → Store
  | [] => s
  | (amb, r) :: rest => run L (step L amb s r).2 rest

/-! ## Predicates on stores -/

/-- At most one cart item per pair of cart and product. -/
def UniquePairs (s : Store) : Prop :=
  (s.cartItems.map (fun i => (i.cartId, i.productId))).Nodup

instance (s : Store) : Decidable (UniquePairs s) := by
  unfold UniquePairs; infer_instance

/-- Every cart item has a quantity greater than 0. -/
def PositiveQuantities (s : Store) : Prop :=
  ∀ i ∈ s.cartItems, 0 < i.quantity

instance (s : Store) : Decidable (PositiveQuantities s) := by
  unfold PositiveQuantities; infer_instance

/-- Integrity of the cart tables as the relational store keeps it: the ids of
carts lie below the auto-increment counter and every cart item refers to a cart
that exists. -/
def CartsIntact (s : Store) : Prop :=
  (∀ c ∈ s.carts, c.id < s.nextCartId) ∧
  (∀ i ∈ s.cartItems, ∃ c ∈ s.carts, c.id = i.cartId)

instance (s : Store) : Decidable (CartsIntact s) := by
  unfold CartsIntact; infer_instance

/-- The cart items of a cart that hold a given product. -/
def itemsOf (s : Store) (cartId productId : Int) : List CartItem :=
  s.cartItems.filter (fun i => decide (i.cartId = cartId ∧ i.productId = productId))

/-! ## Stand-ins for the libraries, used to evaluate the model -/

/-- A table-driven stand-in for `jsonwebtoken`: two tokens are known under the
server's secret, one under another secret. -/
def stubJwt : JwtLib where
  sign := fun c k =>
    if k = secretKey then (if c.id = 1 then "tokenA" else "tokenB") else "tokenX"
  verify := fun t k =>
    if k = secretKey then
      (if t = "tokenA" then some ⟨1, "ana@toko.id", 0⟩
       else if t = "tokenB" then some ⟨2, "budi@toko.id", 0⟩
       else none)
    else none

/-- A stand-in for `bcrypt` that keeps the password readable. -/
def stubBcrypt : BcryptLib where
  hash := fun password _ _ => "hash:" ++ password
  compare := fun password hashed => decide (hashed = "hash:" ++ password)

/-- A store that accepts every cart item row. -/
def acceptAll : Store → CartItem → Bool :=
  fun _ _ => true

/-- The stand-in libraries with a case-sensitive collation, a `LIKE` without
escape character and a store that accepts every row. -/
def stubLibs : Libs :=
  ⟨stubJwt, stubBcrypt, id, none, acceptAll⟩

/-- The laws of `jsonwebtoken` that the guard relies on: a token has no blank,
it verifies under the secret it was signed with to the claims signed, and it
does not verify under another secret. -/
def JwtLawful (jw : JwtLib) : Prop :=
  (∀ c k, ' ' ∉ (jw.sign c k).toList) ∧
  (∀ c k, jw.verify (jw.sign c k) k = some c) ∧
  (∀ c k k2, k ≠ k2 → jw.verify (jw.sign c k) k2 = none)

/-- Numbers written in unary, each closed by a `b`. -/
def encodeNats : List Nat → List Char
  | [] => []
  | n :: ns => List.replicate n 'a' ++ 'b' :: encodeNats ns

/-- Inverse of `encodeNats`; `acc` counts the `a`s read since the last `b`. -/
def decodeNatsAux (acc : Nat) : List Char → List Nat
  | [] => []
  | c :: cs => if c = 'b' then acc :: decodeNatsAux 0 cs else decodeNatsAux (acc + 1) cs

/-- The numbers a token of `plainJwt` is made of: sign and size of the id, issue
time, length of the email, then the characters of the email and of the secret. -/
def plainFields (c : Claims) (k : String) : List Nat :=
  (if c.id < 0 then 1 else 0) :: c.id.natAbs :: c.iat :: c.email.toList.length ::
    (c.email.toList.map Char.toNat ++ k.toList.map Char.toNat)

/-- Inverse of `plainFields`. -/
def plainParse : List Nat → Option (Claims × String)
  | sgn :: size :: iat :: len :: rest =>
    some (⟨if sgn = 1 then -(size : Int) else (size : Int),
           String.mk ((rest.take len).map Char.ofNat), iat⟩,
          String.mk ((rest.drop len).map Char.ofNat))
  | _ => none

/-- A stand-in for `jsonwebtoken` that satisfies `JwtLawful`: the token spells
out the claims and the secret, and verification reads them back. -/
def plainJwt : JwtLib where
  sign := fun c k => String.mk (encodeNats (plainFields c k))
  verify := fun t k =>
    match plainParse (decodeNatsAux 0 t.toList) with
    | some (c, k0) =>
      if k0 = k ∧ String.mk (encodeNats (plainFields c k0)) = t then some c else none
    | none => none

/-- The stand-in libraries with the lawful token library. -/
def plainLibs : Libs :=
  ⟨plainJwt, stubBcrypt, id, none, acceptAll⟩

/-- Ambient inputs used in the examples. -/
def stubAmbient : Ambient :=
  ⟨0, 0, none⟩

/-- A store with two users; the second owns a cart holding one item. -/
def sampleStore : Store where
  users := [⟨1, "Ana", "ana@toko.id", "hash:rahasia"⟩, ⟨2, "Budi", "budi@toko.id", "hash:sandi"⟩]
  products := [⟨7, "Kopi", "Kopi bubuk", ⟨25, 0⟩, 10, "minuman", none, 100⟩]
  carts := [⟨1, 2⟩]
  cartItems := [⟨5, 1, 7, 2⟩]
  nextUserId := 3
  nextProductId := 8
  nextCartId := 2
  nextCartItemId := 6

/-- A catalogue of two products, neither with a `%` in its name. -/
def sampleCatalog : Store where
  users := []
  products :=
    [⟨1, "Kopi", "Kopi bubuk", ⟨25, 0⟩, 10, "minuman", none, 100⟩,
     ⟨2, "Teh", "Teh celup", ⟨15, 0⟩, 4, "minuman", none, 200⟩]
  carts := []
  cartItems := []
  nextUserId := 1
  nextProductId := 3
  nextCartId := 1
  nextCartItemId := 1

/-! ## Theorems -/

/-! ### Registration and login -/

theorem findUserByEmail_isSome_of_mem {s : Store} {email : String} {u : User}
    (hu : u ∈ s.users) (he : u.email = email) :
    ∃ v, findUserByEmail s email = some v := by
  unfold findUserByEmail
  cases hf : s.users.find? (fun u => decide (u.email = email)) with
  | some v => exact ⟨v, rfl⟩
  | none =>
    rw [List.find?_eq_none] at hf
    exact absurd (by simpa using he) (hf u hu)

theorem findUserByEmail_none_of_fresh {s : Store} {email : String}
    (h : ∀ u ∈ s.users, u.email ≠ email) : findUserByEmail s email = none := by
  unfold findUserByEmail
  rw [List.find?_eq_none]
  intro u hu
  simpa using h u hu

theorem filter_email_eq_nil {us : List User} {email : String}
    (h : ∀ u ∈ us, u.email ≠ email) :
    us.filter (fun u => decide (u.email = email)) = [] := by
  rw [List.filter_eq_nil_iff]
  intro u hu
  simpa using h u hu

/-- C5: when the store already holds a user with the given email, `POST /register`
answers 400 with the message "Email already in use" and leaves the store as it
is; in particular, when that store is the result of a first registration of a
fresh email, the users with that email after the second call are exactly the
first call's user, with its name and password hash. -/
theorem register_existing_email_conflict (bc : BcryptLib) (amb : Ambient) (s : Store)
    (name email password : String) (h : ∃ u ∈ s.users, u.email = email) :
    register bc amb s name email password
        = (messageResponse 400 "Email already in use", s) ∧
      ∀ (s0 : Store) (amb0 : Ambient) (name0 password0 : String),
        (∀ u ∈ s0.users, u.email ≠ email) →
        s = (register bc amb0 s0 name0 email password0).2 →
        (register bc amb s name email password).2.users.filter
            (fun u => decide (u.email = email))
          = [⟨s0.nextUserId, name0, email, bc.hash password0 10 amb0.salt⟩] := by
  obtain ⟨u, hu, he⟩ := h
  obtain ⟨v, hv⟩ := findUserByEmail_isSome_of_mem hu he
  have hreg : register bc amb s name email password
      = (messageResponse 400 "Email already in use", s) := by
    unfold register
    rw [hv]
  refine ⟨hreg, ?_⟩
  intro s0 amb0 name0 password0 hfresh hs
  rw [hreg]
  subst hs
  unfold register
  rw [findUserByEmail_none_of_fresh hfresh]
  simp [createUser, List.filter_append, filter_email_eq_nil hfresh]

/-- Witness for C5: registering "ana@toko.id" twice from the empty store keeps
the first call's user. -/
theorem register_existing_email_conflict_witness :
    register stubBcrypt stubAmbient
        (register stubBcrypt stubAmbient Store.empty "Ana" "ana@toko.id" "rahasia").2
        "Ani" "ana@toko.id" "lain"
      = (messageResponse 400 "Email already in use",
         (register stubBcrypt stubAmbient Store.empty "Ana" "ana@toko.id" "rahasia").2) ∧
      (register stubBcrypt stubAmbient
        (register stubBcrypt stubAmbient Store.empty "Ana" "ana@toko.id" "rahasia").2
        "Ani" "ana@toko.id" "lain").2.users.filter
          (fun u => decide (u.email = "ana@toko.id"))
        = [⟨1, "Ana", "ana@toko.id", "hash:rahasia"⟩] :=
  have h := register_existing_email_conflict stubBcrypt stubAmbient
    (register stubBcrypt stubAmbient Store.empty "Ana" "ana@toko.id" "rahasia").2
    "Ani" "ana@toko.id" "lain"
    ⟨⟨1, "Ana", "ana@toko.id", "hash:rahasia"⟩, by decide, by decide⟩
  ⟨h.1, h.2 Store.empty stubAmbient "Ana" "rahasia" (by decide) rfl⟩

/-- C6: the response of `POST /login` for an unknown email equals the response
for a known email with a password that does not match the stored hash (status
400, body with the message "Invalid email or password"), and no call of the
handler changes the store. -/
theorem login_failure_uniform (L : Libs) (amb : Ambient) (s : Store)
    (email password email2 password2 : String) (user : User)
    (hunknown : findUserByEmail s email = none)
    (hknown : findUserByEmail s email2 = some user)
    (hwrong : L.bc.compare password2 user.password = false) :
    (login L amb s email password).1 = (login L amb s email2 password2).1 ∧
      (login L amb s email password).1
        = messageResponse 400 "Invalid email or password" ∧
      (login L amb s email2 password2).1
        = messageResponse 400 "Invalid email or password" ∧
      ∀ (a : Ambient) (e p : String), (login L a s e p).2 = s := by
  have h1 : (login L amb s email password).1
      = messageResponse 400 "Invalid email or password" := by
    unfold login; rw [hunknown]
  have h2 : (login L amb s email2 password2).1
      = messageResponse 400 "Invalid email or password" := by
    unfold login; rw [hknown]; simp [hwrong]
  refine ⟨by rw [h1, h2], h1, h2, ?_⟩
  intro a e p
  unfold login
  cases findUserByEmail s e with
  | none => rfl
  | some u => dsimp only; split <;> rfl

/-- Witness for C6: an unknown email against a known email with a wrong
password on the sample store. -/
theorem login_failure_uniform_witness :
    (login stubLibs stubAmbient sampleStore "tamu@toko.id" "rahasia").1
      = (login stubLibs stubAmbient sampleStore "ana@toko.id" "salah").1 :=
  (login_failure_uniform stubLibs stubAmbient sampleStore "tamu@toko.id" "rahasia"
    "ana@toko.id" "salah" ⟨1, "Ana", "ana@toko.id", "hash:rahasia"⟩
    (by decide) (by decide) (by decide)).1

/-! ### The cart -/

theorem findOrCreateCart_cartItems (s : Store) (userId : Int) :
    (findOrCreateCart s userId).2.cartItems = s.cartItems := by
  unfold findOrCreateCart
  cases findCart s userId <;> rfl

theorem updateItemQuantity_pairs (s : Store) (id quantity : Int) :
    (updateItemQuantity s id quantity).cartItems.map (fun i => (i.cartId, i.productId))
      = s.cartItems.map (fun i => (i.cartId, i.productId)) := by
  unfold updateItemQuantity
  simp only [List.map_map]
  apply List.map_congr_left
  intro i _
  simp only [Function.comp]
  split <;> rfl

theorem uniquePairs_of_filter (s : Store) (keep : CartItem → Bool) (h : UniquePairs s) :
    ((s.cartItems.filter keep).map (fun i => (i.cartId, i.productId))).Nodup :=
  List.Nodup.sublist (List.Sublist.map _ (List.filter_sublist s.cartItems)) h

theorem addToCart_store_cases (accepts : Store → CartItem → Bool) (s : Store)
    (userId productId quantity : Int) :
    (addToCart accepts s userId productId quantity).2 = (findOrCreateCart s userId).2 ∨
      (∃ e total,
        findItemByProduct (findOrCreateCart s userId).2
            (findOrCreateCart s userId).1.id productId = some e ∧
        jsAdd e.quantity quantity = some total ∧
        (addToCart accepts s userId productId quantity).2
          = updateItemQuantity (findOrCreateCart s userId).2 e.id total) ∨
      (findItemByProduct (findOrCreateCart s userId).2
            (findOrCreateCart s userId).1.id productId = none ∧
        (addToCart accepts s userId productId quantity).2
          = createItem (findOrCreateCart s userId).2
              (findOrCreateCart s userId).1.id productId quantity) := by
  unfold addToCart
  dsimp only
  cases hf : findItemByProduct (findOrCreateCart s userId).2
      (findOrCreateCart s userId).1.id productId with
  | some e =>
    dsimp only
    cases hj : jsAdd e.quantity quantity with
    | none => exact Or.inl rfl
    | some total =>
      dsimp only
      split
      · exact Or.inr (Or.inl ⟨e, total, rfl, hj, rfl⟩)
      · exact Or.inl rfl
  | none =>
    dsimp only
    split
    · exact Or.inr (Or.inr ⟨rfl, rfl⟩)
    · exact Or.inl rfl

theorem addToCart_uniquePairs (accepts : Store → CartItem → Bool) (s : Store)
    (userId productId quantity : Int) (h : UniquePairs s) :
    UniquePairs (addToCart accepts s userId productId quantity).2 := by
  have hitems := findOrCreateCart_cartItems s userId
  have h1 : UniquePairs (findOrCreateCart s userId).2 := by
    unfold UniquePairs
    rw [hitems]
    exact h
  rcases addToCart_store_cases accepts s userId productId quantity with
    hs | ⟨e, total, _, _, hs⟩ | ⟨hf, hs⟩
  · rw [hs]
    exact h1
  · rw [hs]
    unfold UniquePairs
    rw [updateItemQuantity_pairs]
    exact h1
  · rw [hs]
    unfold findItemByProduct at hf
    rw [List.find?_eq_none] at hf
    unfold UniquePairs createItem
    simp only [List.map_append, List.map_cons, List.map_nil]
    rw [List.nodup_append]
    refine ⟨h1, List.nodup_singleton _, ?_⟩
    rw [List.disjoint_singleton]
    intro hmem
    rw [List.mem_map] at hmem
    obtain ⟨i, hi, hpair⟩ := hmem
    apply hf i hi
    simp only [Prod.mk.injEq] at hpair
    simp [hpair.1, hpair.2]

theorem removeFromCart_uniquePairs (s : Store) (userId : Int) (param : Option Int)
    (h : UniquePairs s) : UniquePairs (removeFromCart s userId param).2 := by
  unfold removeFromCart
  cases findCart s userId with
  | none => exact h
  | some cart =>
    cases param with
    | none => exact h
    | some id =>
      dsimp only
      cases findItemById s cart.id id with
      | none => exact h
      | some item => exact uniquePairs_of_filter s _ h

theorem deleteProduct_uniquePairs (s : Store) (id : Option Int) (h : UniquePairs s) :
    UniquePairs (deleteProduct s id).2 := by
  unfold deleteProduct
  cases id with
  | none => exact h
  | some pid =>
    dsimp only
    cases findProduct s pid with
    | none => exact h
    | some _ => exact uniquePairs_of_filter s _ h

theorem register_cartItems (bc : BcryptLib) (amb : Ambient) (s : Store)
    (name email password : String) :
    (register bc amb s name email password).2.cartItems = s.cartItems := by
  unfold register
  cases findUserByEmail s email <;> rfl

theorem login_store (L : Libs) (amb : Ambient) (s : Store) (email password : String) :
    (login L amb s email password).2 = s := by
  unfold login
  cases findUserByEmail s email with
  | none => rfl
  | some u => dsimp only; split <;> rfl

theorem createProduct_cartItems (amb : Ambient) (s : Store) (b : ProductBody) :
    (createProduct amb s b).2.cartItems = s.cartItems := by
  unfold createProduct
  dsimp only
  split <;> rfl

theorem guarded_preserves (P : Store → Prop) (jw : JwtLib) (authorization : Option String)
    (s : Store) (handler : Claims → Response × Store) (h : P s)
    (hh : ∀ user, P (handler user).2) : P (guarded jw authorization s handler).2 := by
  unfold guarded
  cases authenticateToken jw authorization with
  | reject r => exact h
  | next user => exact hh user

/-- C2: "at most one cart item per pair of cart and product" is an invariant of
the step function: if it holds before a request is served (register, login,
create-product, list, delete-product, add-to-cart, get-cart, remove-from-cart,
test), it holds after, for every request and every ambient input. -/
theorem step_preserves_uniquePairs (L : Libs) (amb : Ambient) (s : Store) (r : Request)
    (h : UniquePairs s) : UniquePairs (step L amb s r).2 := by
  cases r with
  | register name email password =>
    show UniquePairs (register L.bc amb s name email password).2
    unfold UniquePairs
    rw [register_cartItems]
    exact h
  | login email password =>
    show UniquePairs (login L amb s email password).2
    rw [login_store]
    exact h
  | createProduct b =>
    show UniquePairs (createProduct amb s b).2
    unfold UniquePairs
    rw [createProduct_cartItems]
    exact h
  | listProducts search => exact h
  | deleteProduct id => exact deleteProduct_uniquePairs s id h
  | addToCart authorization productId quantity =>
    exact guarded_preserves UniquePairs L.jw authorization s _ h
      (fun user => addToCart_uniquePairs L.acceptsItem s user.id productId quantity h)
  | getCart authorization =>
    refine guarded_preserves UniquePairs L.jw authorization s _ h (fun user => ?_)
    show UniquePairs (getCart s user.id).2
    unfold getCart
    cases findCart s user.id <;> exact h
  | removeFromCart authorization param =>
    exact guarded_preserves UniquePairs L.jw authorization s _ h
      (fun user => removeFromCart_uniquePairs s user.id param h)
  | test => exact h

/-- Witness for C2: adding product 7 again to the cart of the sample store that
already holds it. -/
theorem step_preserves_uniquePairs_witness :
    UniquePairs sampleStore ∧
      UniquePairs
        (step stubLibs stubAmbient sampleStore
          (Request.addToCart (some "Bearer tokenB") 7 3)).2 :=
  ⟨by decide,
   step_preserves_uniquePairs stubLibs stubAmbient sampleStore
     (Request.addToCart (some "Bearer tokenB") 7 3) (by decide)⟩

/-- C4: a request `DELETE /cart/remove/:productId` made as one user with the id
of a cart item that lies in another user's cart, and that no item of the
requester's own cart carries, is answered 404 with a message-only body and
leaves the store unchanged, so the item is still there; without a cart of the
requester the message is the one for the missing cart. -/
theorem removeFromCart_foreign_item_not_found (L : Libs) (amb : Ambient) (s : Store)
    (authorization : Option String) (me : Claims) (v : Int) (cv : Cart) (item : CartItem)
    (hauth : authenticateToken L.jw authorization = GuardResult.next me)
    (_hdistinct : me.id ≠ v)
    (_hcart : findCart s v = some cv)
    (hitem : item ∈ s.cartItems)
    (_hown : item.cartId = cv.id)
    (hforeign : ∀ cu, findCart s me.id = some cu →
      ∀ j ∈ s.cartItems, j.id = item.id → j.cartId ≠ cu.id) :
    (step L amb s (Request.removeFromCart authorization (some item.id))).1.status = 404 ∧
      (step L amb s (Request.removeFromCart authorization (some item.id))).1.body.IsMessageOnly ∧
      (step L amb s (Request.removeFromCart authorization (some item.id))).2 = s ∧
      item ∈ (step L amb s (Request.removeFromCart authorization (some item.id))).2.cartItems ∧
      (findCart s me.id = none →
        (step L amb s (Request.removeFromCart authorization (some item.id))).1
          = messageResponse 404 "Keranjang tidak ditemukan.") ∧
      (findCart s me.id ≠ none →
        (step L amb s (Request.removeFromCart authorization (some item.id))).1
          = messageResponse 404 "Produk tidak ada di keranjang.") := by
  have hstep : step L amb s (Request.removeFromCart authorization (some item.id))
      = removeFromCart s me.id (some item.id) := by
    show guarded L.jw authorization s _ = _
    unfold guarded
    rw [hauth]
  rw [hstep]
  unfold removeFromCart
  cases hc : findCart s me.id with
  | none =>
    exact ⟨rfl, ⟨_, rfl⟩, rfl, hitem, fun _ => rfl, fun hne => absurd rfl hne⟩
  | some cu =>
    have hnone : findItemById s cu.id item.id = none := by
      unfold findItemById
      rw [List.find?_eq_none]
      intro j hj hp
      simp only [decide_eq_true_eq] at hp
      exact hforeign cu hc j hj hp.2 hp.1
    dsimp only
    rw [hnone]
    exact ⟨rfl, ⟨_, rfl⟩, rfl, hitem, fun hne => Option.noConfusion hne, fun _ => rfl⟩

/-- Witness for C4: user 1 (without a cart) asks to remove item 5, which lies in
the cart of user 2 in the sample store. -/
theorem removeFromCart_foreign_item_not_found_witness :
    (step stubLibs stubAmbient sampleStore
        (Request.removeFromCart (some "Bearer tokenA") (some 5))).1.status = 404 ∧
      (step stubLibs stubAmbient sampleStore
        (Request.removeFromCart (some "Bearer tokenA") (some 5))).2 = sampleStore :=
  have h := removeFromCart_foreign_item_not_found stubLibs stubAmbient sampleStore
    (some "Bearer tokenA") ⟨1, "ana@toko.id", 0⟩ 2 ⟨1, 2⟩ ⟨5, 1, 7, 2⟩
    (by rfl) (by decide) (by decide) (by decide) (by decide) (by decide)
  ⟨h.1, h.2.2.1⟩

theorem two_pow_bitLengthAux_le (fuel : Nat) :
    ∀ n, 0 < n → n ≤ fuel → 2 ^ (bitLengthAux fuel n - 1) ≤ n := by
  induction fuel with
  | zero => intro n hn hf; omega
  | succ fuel ih =>
    intro n hn hf
    have hne : n ≠ 0 := by omega
    simp only [bitLengthAux, if_neg hne, Nat.add_sub_cancel]
    by_cases hhalf : n / 2 = 0
    · have hzero : bitLengthAux fuel (n / 2) = 0 := by
        rw [hhalf]
        cases fuel <;> simp [bitLengthAux]
      rw [hzero]
      simpa using hn
    · have hpos : 0 < n / 2 := Nat.pos_of_ne_zero hhalf
      have hle : n / 2 ≤ fuel := by omega
      have hrec := ih (n / 2) hpos hle
      have hb : 1 ≤ bitLengthAux fuel (n / 2) := by
        cases fuel with
        | zero => omega
        | succ f => simp [bitLengthAux, hhalf]
      have hpow : 2 ^ bitLengthAux fuel (n / 2)
          = 2 * 2 ^ (bitLengthAux fuel (n / 2) - 1) := by
        conv_lhs => rw [← Nat.sub_add_cancel hb]
        rw [Nat.pow_succ, Nat.mul_comm]
      rw [hpow]
      omega

theorem roundToDouble_pos (x : Int) (hx : 0 < x) : 0 < roundToDouble x := by
  unfold roundToDouble
  dsimp only
  split
  · exact hx
  · rw [if_pos (le_of_lt hx)]
    have hn : 0 < x.natAbs := Int.natAbs_pos.mpr (ne_of_gt hx)
    have hle := two_pow_bitLengthAux_le x.natAbs x.natAbs hn (le_refl _)
    have hexp : bitLength x.natAbs - 53 ≤ bitLengthAux x.natAbs x.natAbs - 1 := by
      unfold bitLength
      omega
    have he : 2 ^ (bitLength x.natAbs - 53) ≤ x.natAbs :=
      le_trans (Nat.pow_le_pow_right (by decide) hexp) hle
    have hpow : 0 < 2 ^ (bitLength x.natAbs - 53) := Nat.pow_pos (by decide)
    have hq : 0 < x.natAbs / 2 ^ (bitLength x.natAbs - 53) := Nat.div_pos he hpow
    have hprod : 0 <
        (if 2 ^ (bitLength x.natAbs - 53 - 1) < x.natAbs % 2 ^ (bitLength x.natAbs - 53) ∨
            (x.natAbs % 2 ^ (bitLength x.natAbs - 53) = 2 ^ (bitLength x.natAbs - 53 - 1) ∧
              x.natAbs / 2 ^ (bitLength x.natAbs - 53) % 2 = 1)
          then x.natAbs / 2 ^ (bitLength x.natAbs - 53) + 1
          else x.natAbs / 2 ^ (bitLength x.natAbs - 53)) * 2 ^ (bitLength x.natAbs - 53) := by
      apply Nat.mul_pos _ hpow
      split <;> omega
    exact_mod_cast hprod

theorem jsAdd_pos {a b total : Int} (h : jsAdd a b = some total) (ha : 0 < a) (hb : 0 < b) :
    0 < total := by
  unfold jsAdd at h
  dsimp only at h
  split at h
  · simp only [Option.some.injEq] at h
    rw [← h]
    exact roundToDouble_pos (a + b) (add_pos ha hb)
  · cases h

theorem jsAdd_exact {a b : Int} (h : IsJsInteger (a + b)) : jsAdd a b = some (a + b) := by
  unfold jsAdd
  dsimp only
  rw [h.1, if_pos h.2]

theorem isJsInteger_of_safe (x : Int) (h : x.natAbs < 2 ^ 53) : IsJsInteger x := by
  constructor
  · unfold roundToDouble
    dsimp only
    rw [if_pos h]
  · have hlim : 2 ^ 53 < doubleLimit := by decide
    omega

/-- Counterexample to C10 as stated: in the sample store every quantity is
positive, user 1 and product 7 exist, and `POST /cart/add` with quantity 0
inserts an item of quantity 0. -/
theorem addToCart_zero_quantity_not_positive :
    PositiveQuantities sampleStore ∧
      ¬ PositiveQuantities (addToCart acceptAll sampleStore 1 7 0).2 := by
  decide

/-- C10, amended: if every cart item has a quantity greater than 0, then after
`POST /cart/add` with a quantity greater than 0 every cart item still has a
quantity greater than 0, on the insert branch and on the increment branch, and
also when the store rejects the write. -/
theorem addToCart_preserves_positiveQuantities (accepts : Store → CartItem → Bool)
    (s : Store) (userId productId quantity : Int)
    (h : PositiveQuantities s) (hq : 0 < quantity) :
    PositiveQuantities (addToCart accepts s userId productId quantity).2 := by
  have hitems := findOrCreateCart_cartItems s userId
  have h1 : PositiveQuantities (findOrCreateCart s userId).2 := by
    intro i hi
    rw [hitems] at hi
    exact h i hi
  rcases addToCart_store_cases accepts s userId productId quantity with
    hs | ⟨e, total, hf, hj, hs⟩ | ⟨_, hs⟩
  · rw [hs]
    exact h1
  · rw [hs]
    have he : e ∈ (findOrCreateCart s userId).2.cartItems := List.mem_of_find?_eq_some hf
    have hpos : 0 < total := jsAdd_pos hj (h1 e he) hq
    intro i hi
    unfold updateItemQuantity at hi
    simp only [List.mem_map] at hi
    obtain ⟨j, hj2, hji⟩ := hi
    by_cases hid : j.id = e.id
    · rw [if_pos hid] at hji
      rw [← hji]
      exact hpos
    · rw [if_neg hid] at hji
      rw [← hji]
      exact h1 j hj2
  · rw [hs]
    intro i hi
    unfold createItem at hi
    simp only [List.mem_append, List.mem_singleton] at hi
    rcases hi with hi | hi
    · exact h1 i hi
    · rw [hi]
      exact hq

/-- Witness for C10, amended: adding 3 more of product 7 on the sample store. -/
theorem addToCart_preserves_positiveQuantities_witness :
    PositiveQuantities sampleStore ∧
      PositiveQuantities (addToCart acceptAll sampleStore 2 7 3).2 :=
  ⟨by decide,
   addToCart_preserves_positiveQuantities acceptAll sampleStore 2 7 3
     (by decide) (by decide)⟩

/-! ### Listing and deleting products -/

theorem likeTokensAux_plain (fold : Char → Char) (escape : Option Char)
    (q rest : List Char) (h1 : '%' ∉ q) (h2 : '_' ∉ q)
    (h3 : ∀ e, escape = some e → e ∉ q) :
    likeTokensAux fold escape false (q ++ rest)
      = (q.map fold).map LikeTok.lit ++ likeTokensAux fold escape false rest := by
  induction q with
  | nil => rfl
  | cons c cs ih =>
    have hc1 : c ≠ '%' := fun hc => h1 (by simp [hc])
    have hc2 : c ≠ '_' := fun hc => h2 (by simp [hc])
    have hc3 : escape ≠ some c := fun he => h3 c he (List.mem_cons_self c cs)
    have ih2 := ih (fun hm => h1 (List.mem_cons_of_mem c hm))
      (fun hm => h2 (List.mem_cons_of_mem c hm))
      (fun e he hm => h3 e he (List.mem_cons_of_mem c hm))
    simp only [List.cons_append, likeTokensAux, if_neg hc1, if_neg hc2, if_neg hc3,
      List.map_cons, List.append_eq, ih2]

theorem likeMatch_lits_any (cs : List Char) :
    ∀ text, likeMatch (cs.map LikeTok.lit ++ [LikeTok.any]) text = true ↔ cs <+: text := by
  induction cs with
  | nil =>
    intro text
    simp only [List.map_nil, List.nil_append, likeMatch, List.any_eq_true, List.nil_prefix,
      iff_true]
    exact ⟨[], (List.mem_tails [] text).2 List.nil_suffix, rfl⟩
  | cons c cs ih =>
    intro text
    cases text with
    | nil => simp [likeMatch]
    | cons d rest =>
      simp only [List.map_cons, List.cons_append, likeMatch, Bool.and_eq_true,
        decide_eq_true_eq, List.append_eq, ih rest, List.cons_prefix_cons]

theorem likeMatch_any (ts : List LikeTok) (text : List Char) :
    likeMatch (LikeTok.any :: ts) text = true ↔ ∃ t, t <:+ text ∧ likeMatch ts t = true := by
  simp only [likeMatch, List.any_eq_true, List.mem_tails]

theorem nameContains_plain (fold : Char → Char) (escape : Option Char) (q : String)
    (p : Product) (h1 : '%' ∉ q.toList) (h2 : '_' ∉ q.toList)
    (h3 : ∀ e, escape = some e → e ∉ q.toList) :
    nameContains fold escape q p
      = decide (q.toList.map fold <:+: p.name.toList.map fold) := by
  have htok : likeTokensAux fold escape false ('%' :: q.toList ++ ['%'])
      = LikeTok.any :: ((q.toList.map fold).map LikeTok.lit ++ [LikeTok.any]) := by
    have hlast : likeTokensAux fold escape false ['%'] = [LikeTok.any] := by
      simp [likeTokensAux]
    rw [List.cons_append]
    simp only [likeTokensAux, if_true]
    rw [likeTokensAux_plain fold escape q.toList ['%'] h1 h2 h3, hlast]
  unfold nameContains
  rw [htok, Bool.eq_iff_iff, likeMatch_any, decide_eq_true_eq, List.infix_iff_prefix_suffix]
  constructor
  · rintro ⟨t, hsuf, hm⟩
    exact ⟨t, (likeMatch_lits_any _ t).1 hm, hsuf⟩
  · rintro ⟨t, hpre, hsuf⟩
    exact ⟨t, hsuf, (likeMatch_lits_any _ t).2 hpre⟩

theorem filter_blank_infix (fold : Char → Char) (ps : List Product) :
    ps.filter (fun p => decide (("" : String).toList.map fold <:+: p.name.toList.map fold))
      = ps := by
  rw [List.filter_eq_self]
  intro p _
  simp

theorem selectProducts_plain (fold : Char → Char) (escape : Option Char) (s : Store)
    (q : String) (h1 : '%' ∉ q.toList) (h2 : '_' ∉ q.toList)
    (h3 : ∀ e, escape = some e → e ∉ q.toList) :
    selectProducts fold escape s (some q)
      = s.products.filter
          (fun p => decide (q.toList.map fold <:+: p.name.toList.map fold)) := by
  unfold selectProducts
  dsimp only
  split
  · next hq => rw [hq, filter_blank_infix]
  · apply List.filter_congr
    intro p _
    exact nameContains_plain fold escape q p h1 h2 h3

/-- Counterexample to C7 as stated: with the search term `%` the handler returns
both products of the catalogue, although no product name contains a `%`. -/
theorem listProducts_wildcard_matches_all :
    findProducts id none sampleCatalog (some "%")
        = [⟨2, "Teh", "Teh celup", ⟨15, 0⟩, 4, "minuman", none, 200⟩,
           ⟨1, "Kopi", "Kopi bubuk", ⟨25, 0⟩, 10, "minuman", none, 100⟩] ∧
      sampleCatalog.products.filter
          (fun p => decide (("%" : String).toList <:+: p.name.toList)) = [] := by
  decide

/-- C7, amended: `GET /products` leaves the store unchanged and answers 200 with
the rows of `findProducts`.  With a search term these are exactly the products
whose name matches the pattern `%term%` of the store's `LIKE`, in which a `%` or
`_` of the term is a wildcard; for a term without `%`, `_` and escape character
they are exactly the products whose name contains the term up to the folding of
the collation, and on a store that compares characters as they are exactly the
products whose name contains the term as a substring.  Without a term, or with
the empty one, they are all products.  In every case the rows are ordered by
`createdAt`, newest first. -/
theorem listProducts_filters_and_orders (fold : Char → Char) (escape : Option Char)
    (s : Store) :
    (∀ search, (listProducts fold escape s search).2 = s) ∧
      (∀ search, (listProducts fold escape s search).1
        = ⟨200, Body.json (Json.obj
            [("message", Json.str "Berhasil"),
             ("data", Json.arr ((findProducts fold escape s search).map productJson))])⟩) ∧
      (∀ q : String, q ≠ "" → (findProducts fold escape s (some q)).Perm
        (s.products.filter
          (fun p => likeMatch (likeTokensAux fold escape false ('%' :: q.toList ++ ['%']))
            (p.name.toList.map fold)))) ∧
      (∀ q : String, '%' ∉ q.toList → '_' ∉ q.toList →
        (∀ e, escape = some e → e ∉ q.toList) →
        (findProducts fold escape s (some q)).Perm
            (s.products.filter
              (fun p => decide (q.toList.map fold <:+: p.name.toList.map fold))) ∧
          (findProducts id escape s (some q)).Perm
            (s.products.filter (fun p => decide (q.toList <:+: p.name.toList)))) ∧
      (findProducts fold escape s none).Perm s.products ∧
      (findProducts fold escape s (some "")).Perm s.products ∧
      (∀ search, (findProducts fold escape s search).Pairwise
        (fun a b => b.createdAt ≤ a.createdAt)) := by
  refine ⟨fun _ => rfl, fun _ => rfl, ?_, ?_, ?_, ?_, ?_⟩
  · intro q hq
    have hsel : selectProducts fold escape s (some q)
        = s.products.filter (nameContains fold escape q) := by
      unfold selectProducts
      dsimp only
      rw [if_neg hq]
    unfold findProducts orderByCreatedAtDesc
    rw [hsel]
    exact List.perm_insertionSort _ _
  · intro q h1 h2 h3
    constructor
    · unfold findProducts orderByCreatedAtDesc
      rw [selectProducts_plain fold escape s q h1 h2 h3]
      exact List.perm_insertionSort _ _
    · unfold findProducts orderByCreatedAtDesc
      rw [selectProducts_plain id escape s q h1 h2 h3]
      simp only [List.map_id]
      exact List.perm_insertionSort _ _
  · unfold findProducts orderByCreatedAtDesc selectProducts
    exact List.perm_insertionSort _ _
  · unfold findProducts orderByCreatedAtDesc selectProducts
    exact List.perm_insertionSort _ _
  · intro search
    unfold findProducts orderByCreatedAtDesc
    haveI : IsTotal Product (fun a b => b.createdAt ≤ a.createdAt) :=
      ⟨fun a b => Nat.le_total b.createdAt a.createdAt⟩
    haveI : IsTrans Product (fun a b => b.createdAt ≤ a.createdAt) :=
      ⟨fun _ _ _ hab hbc => Nat.le_trans hbc hab⟩
    exact List.sorted_insertionSort _ _

/-- Witness for C7, amended: the term "op" on the catalogue, on a store that
compares characters as they are. -/
theorem listProducts_filters_and_orders_witness :
    (findProducts id none sampleCatalog (some "op")).Perm
      (sampleCatalog.products.filter
        (fun p => decide (("op" : String).toList <:+: p.name.toList))) :=
  ((listProducts_filters_and_orders id none sampleCatalog).2.2.2.1 "op"
    (by decide) (by decide) (fun e he => by cases he)).2

theorem findProduct_id {s : Store} {id : Int} {p : Product}
    (h : findProduct s id = some p) : p ∈ s.products ∧ p.id = id := by
  unfold findProduct at h
  exact ⟨List.mem_of_find?_eq_some h, by simpa using List.find?_some h⟩

theorem findProduct_isSome_of_mem {s : Store} {id : Int} {p : Product}
    (hp : p ∈ s.products) (hid : p.id = id) : ∃ q, findProduct s id = some q := by
  unfold findProduct
  cases hf : s.products.find? (fun p => decide (p.id = id)) with
  | some q => exact ⟨q, rfl⟩
  | none =>
    rw [List.find?_eq_none] at hf
    exact absurd (by simpa using hid) (hf p hp)

theorem mem_cartView {s : Store} {userId : Int} {row : CartItem × Option Product}
    (h : row ∈ cartView s userId) :
    row.1 ∈ s.cartItems ∧ row.2 = findProduct s row.1.productId := by
  unfold cartView at h
  cases hc : findCart s userId with
  | none => rw [hc] at h; cases h
  | some cart =>
    rw [hc] at h
    unfold cartRows at h
    simp only [List.mem_map, List.mem_filter] at h
    obtain ⟨i, ⟨hi, _⟩, hrow⟩ := h
    rw [← hrow]
    exact ⟨hi, rfl⟩

theorem getCart_eq_cartView (s : Store) (userId : Int) :
    (getCart s userId = (⟨200, Body.json (Json.arr [])⟩, s) ∧ cartView s userId = []) ∨
      getCart s userId
        = (⟨200, Body.json (Json.obj
            [("message", Json.str "Berhasil"),
             ("data", Json.arr ((cartView s userId).map cartRowJson))])⟩, s) := by
  unfold getCart cartView
  cases findCart s userId with
  | none => exact Or.inl ⟨rfl, rfl⟩
  | some cart => exact Or.inr rfl

/-- C3: for the id of an existing product, `DELETE /products/:id` answers 200
and ends in a store with no product of that id and no cart item of that product;
the cart items of other products and the other products stay in place, in order;
a following `GET /cart` of any user lists the rows of `cartView`, none of which
refers to the deleted product. -/
theorem deleteProduct_removes_product_and_items (s : Store) (pid : Int) (p : Product)
    (hp : p ∈ s.products) (hid : p.id = pid) :
    (deleteProduct s (some pid)).1 = messageResponse 200 "Produk berhasil dihapus." ∧
      (∀ q ∈ (deleteProduct s (some pid)).2.products, q.id ≠ pid) ∧
      (∀ i ∈ (deleteProduct s (some pid)).2.cartItems, i.productId ≠ pid) ∧
      (deleteProduct s (some pid)).2.cartItems
        = s.cartItems.filter (fun i => decide (i.productId ≠ pid)) ∧
      (deleteProduct s (some pid)).2.products
        = s.products.filter (fun q => decide (q.id ≠ pid)) ∧
      (∀ userId, ∀ row ∈ cartView (deleteProduct s (some pid)).2 userId,
        row.1.productId ≠ pid ∧ ∀ q, row.2 = some q → q.id ≠ pid) ∧
      (∀ userId,
        (getCart (deleteProduct s (some pid)).2 userId
            = (⟨200, Body.json (Json.arr [])⟩, (deleteProduct s (some pid)).2) ∧
          cartView (deleteProduct s (some pid)).2 userId = []) ∨
        getCart (deleteProduct s (some pid)).2 userId
          = (⟨200, Body.json (Json.obj
              [("message", Json.str "Berhasil"),
               ("data", Json.arr
                 ((cartView (deleteProduct s (some pid)).2 userId).map cartRowJson))])⟩,
             (deleteProduct s (some pid)).2)) := by
  obtain ⟨q0, hq0⟩ := findProduct_isSome_of_mem hp hid
  have hdel : deleteProduct s (some pid)
      = (messageResponse 200 "Produk berhasil dihapus.",
         deleteProductRow (deleteItemsOfProduct s pid) pid) := by
    unfold deleteProduct
    dsimp only
    rw [hq0]
  rw [hdel]
  have hitems : ∀ i ∈ (deleteProductRow (deleteItemsOfProduct s pid) pid).cartItems,
      i.productId ≠ pid := by
    intro i hi
    unfold deleteProductRow deleteItemsOfProduct at hi
    simp only [List.mem_filter, decide_eq_true_eq] at hi
    exact hi.2
  have hprods : ∀ q ∈ (deleteProductRow (deleteItemsOfProduct s pid) pid).products,
      q.id ≠ pid := by
    intro q hq
    unfold deleteProductRow deleteItemsOfProduct at hq
    simp only [List.mem_filter, decide_eq_true_eq] at hq
    exact hq.2
  refine ⟨rfl, hprods, hitems, rfl, rfl, ?_, fun userId => getCart_eq_cartView _ userId⟩
  intro userId row hrow
  obtain ⟨hmem, hjoin⟩ := mem_cartView hrow
  refine ⟨hitems row.1 hmem, ?_⟩
  intro q hq
  rw [hjoin] at hq
  exact hprods q (findProduct_id hq).1

/-- Witness for C3: deleting product 7 of the sample store, which lies in the
cart of user 2. -/
theorem deleteProduct_removes_product_and_items_witness :
    (deleteProduct sampleStore (some 7)).2.cartItems = [] ∧
      (deleteProduct sampleStore (some 7)).2.products = [] :=
  have h := deleteProduct_removes_product_and_items sampleStore 7
    ⟨7, "Kopi", "Kopi bubuk", ⟨25, 0⟩, 10, "minuman", none, 100⟩ (by decide) (by decide)
  ⟨h.2.2.2.1.trans (by decide), h.2.2.2.2.1.trans (by decide)⟩

/-! ### Adding the same product twice -/

theorem cartsIntact_empty : CartsIntact Store.empty := by
  decide

theorem findOrCreateCart_cartsIntact (s : Store) (userId : Int) (h : CartsIntact s) :
    CartsIntact (findOrCreateCart s userId).2 ∧
      (findOrCreateCart s userId).1 ∈ (findOrCreateCart s userId).2.carts := by
  unfold findOrCreateCart
  cases hc : findCart s userId with
  | some c => exact ⟨h, List.mem_of_find?_eq_some hc⟩
  | none =>
    refine ⟨⟨?_, ?_⟩, ?_⟩
    · intro c hcm
      simp only [createCart, List.mem_append, List.mem_singleton] at hcm ⊢
      rcases hcm with hcm | hcm
      · have := h.1 c hcm
        omega
      · rw [hcm]
        show s.nextCartId < s.nextCartId + 1
        omega
    · intro i hi
      obtain ⟨c, hcm, hci⟩ := h.2 i hi
      exact ⟨c, by simp [createCart, hcm], hci⟩
    · simp [createCart]

theorem addToCart_cartsIntact (accepts : Store → CartItem → Bool) (s : Store)
    (userId productId quantity : Int) (h : CartsIntact s) :
    CartsIntact (addToCart accepts s userId productId quantity).2 := by
  obtain ⟨hI, hmem⟩ := findOrCreateCart_cartsIntact s userId h
  rcases addToCart_store_cases accepts s userId productId quantity with
    hs | ⟨e, total, _, _, hs⟩ | ⟨_, hs⟩
  · rw [hs]
    exact hI
  · rw [hs]
    refine ⟨hI.1, ?_⟩
    intro i hi
    unfold updateItemQuantity at hi
    simp only [List.mem_map] at hi
    obtain ⟨j, hj, hji⟩ := hi
    obtain ⟨c, hcm, hcj⟩ := hI.2 j hj
    refine ⟨c, hcm, ?_⟩
    rw [hcj, ← hji]
    split <;> rfl
  · rw [hs]
    refine ⟨hI.1, ?_⟩
    intro i hi
    unfold createItem at hi
    simp only [List.mem_append, List.mem_singleton] at hi
    rcases hi with hi | hi
    · exact hI.2 i hi
    · exact ⟨_, hmem, by rw [hi]⟩

/-- Integrity of the cart tables is kept by every request, so it holds in every
store reached from the empty one. -/
theorem step_preserves_cartsIntact (L : Libs) (amb : Ambient) (s : Store) (r : Request)
    (h : CartsIntact s) : CartsIntact (step L amb s r).2 := by
  have hsub : ∀ keep : CartItem → Bool,
      ∀ i ∈ s.cartItems.filter keep, ∃ c ∈ s.carts, c.id = i.cartId :=
    fun keep i hi => h.2 i (List.mem_of_mem_filter hi)
  cases r with
  | register name email password =>
    show CartsIntact (register L.bc amb s name email password).2
    unfold register
    cases findUserByEmail s email <;> exact h
  | login email password =>
    show CartsIntact (login L amb s email password).2
    rw [login_store]
    exact h
  | createProduct b =>
    show CartsIntact (createProduct amb s b).2
    unfold createProduct
    dsimp only
    split <;> exact h
  | listProducts search => exact h
  | deleteProduct id =>
    show CartsIntact (deleteProduct s id).2
    unfold deleteProduct
    cases id with
    | none => exact h
    | some pid =>
      dsimp only
      cases findProduct s pid with
      | none => exact h
      | some _ => exact ⟨h.1, hsub _⟩
  | addToCart authorization productId quantity =>
    exact guarded_preserves CartsIntact L.jw authorization s _ h
      (fun user => addToCart_cartsIntact L.acceptsItem s user.id productId quantity h)
  | getCart authorization =>
    refine guarded_preserves CartsIntact L.jw authorization s _ h (fun user => ?_)
    show CartsIntact (getCart s user.id).2
    unfold getCart
    cases findCart s user.id <;> exact h
  | removeFromCart authorization param =>
    refine guarded_preserves CartsIntact L.jw authorization s _ h (fun user => ?_)
    show CartsIntact (removeFromCart s user.id param).2
    unfold removeFromCart
    cases findCart s user.id with
    | none => exact h
    | some cart =>
      cases param with
      | none => exact h
      | some id =>
        dsimp only
        cases findItemById s cart.id id with
        | none => exact h
        | some item => exact ⟨h.1, hsub _⟩
  | test => exact h

theorem run_cartsIntact (L : Libs) (reqs : List (Ambient × Request)) :
    ∀ s, CartsIntact s → CartsIntact (run L s reqs) := by
  induction reqs with
  | nil => intro s h; exact h
  | cons x rest ih =>
    intro s h
    exact ih _ (step_preserves_cartsIntact L x.1 s x.2 h)

theorem findItemByProduct_none_of_itemsOf {s : Store} {cartId productId : Int}
    (h : itemsOf s cartId productId = []) : findItemByProduct s cartId productId = none := by
  unfold findItemByProduct
  unfold itemsOf at h
  rw [List.filter_eq_nil_iff] at h
  rw [List.find?_eq_none]
  exact h

theorem findOrCreateCart_clean (s : Store) (userId productId : Int)
    (hs : CartsIntact s)
    (hnone : ∀ c, findCart s userId = some c → itemsOf s c.id productId = []) :
    findCart (findOrCreateCart s userId).2 userId = some (findOrCreateCart s userId).1 ∧
      itemsOf (findOrCreateCart s userId).2 (findOrCreateCart s userId).1.id productId = [] := by
  unfold findOrCreateCart
  cases hc : findCart s userId with
  | some c => exact ⟨hc, hnone c hc⟩
  | none =>
    constructor
    · unfold findCart at hc ⊢
      simp [createCart, List.find?_append, hc]
    · unfold itemsOf
      rw [List.filter_eq_nil_iff]
      intro i hi hp
      simp only [createCart, decide_eq_true_eq] at hp
      obtain ⟨c, hcm, hci⟩ := hs.2 i hi
      have := hs.1 c hcm
      omega

theorem findOrCreateCart_of_cart {t : Store} {userId : Int} {c : Cart}
    (hc : findCart t userId = some c) : findOrCreateCart t userId = (c, t) := by
  unfold findOrCreateCart
  rw [hc]

theorem addToCart_of_cart (accepts : Store → CartItem → Bool) {t : Store} {userId : Int}
    {c : Cart} (hc : findCart t userId = some c) (productId quantity : Int) :
    (addToCart accepts t userId productId quantity).2
      = match findItemByProduct t c.id productId with
        | some e =>
          match jsAdd e.quantity quantity with
          | some total =>
            if accepts t { e with quantity := total } then updateItemQuantity t e.id total
            else t
          | none => t
        | none =>
          if accepts t ⟨t.nextCartItemId, c.id, productId, quantity⟩ then
            createItem t c.id productId quantity
          else t := by
  unfold addToCart
  rw [findOrCreateCart_of_cart hc]
  dsimp only
  cases findItemByProduct t c.id productId with
  | some e =>
    dsimp only
    cases jsAdd e.quantity quantity with
    | none => rfl
    | some total => dsimp only; split <;> rfl
  | none => dsimp only; split <;> rfl

theorem addToCart_twice_of_cart (accepts : Store → CartItem → Bool) {t : Store}
    {userId productId : Int} {c : Cart}
    (hc : findCart t userId = some c) (hnone : itemsOf t c.id productId = [])
    (q1 q2 total : Int) (hsum : jsAdd q1 q2 = some total)
    (hacc : ∀ (u : Store) (row : CartItem), row.productId = productId →
      row.quantity = q1 ∨ row.quantity = total → accepts u row = true) :
    findCart (addToCart accepts (addToCart accepts t userId productId q1).2
        userId productId q2).2 userId = some c ∧
      itemsOf (addToCart accepts (addToCart accepts t userId productId q1).2
          userId productId q2).2 c.id productId
        = [⟨t.nextCartItemId, c.id, productId, total⟩] := by
  have hfirst : (addToCart accepts t userId productId q1).2
      = createItem t c.id productId q1 := by
    rw [addToCart_of_cart accepts hc, findItemByProduct_none_of_itemsOf hnone]
    dsimp only
    rw [if_pos (hacc t _ rfl (Or.inl rfl))]
  have hc1 : findCart (createItem t c.id productId q1) userId = some c := hc
  have hfind : findItemByProduct (createItem t c.id productId q1) c.id productId
      = some ⟨t.nextCartItemId, c.id, productId, q1⟩ := by
    have h0 := findItemByProduct_none_of_itemsOf hnone
    unfold findItemByProduct at h0 ⊢
    unfold createItem
    dsimp only
    rw [List.find?_append, h0]
    simp
  rw [hfirst, addToCart_of_cart accepts hc1, hfind]
  dsimp only
  rw [hsum]
  dsimp only
  rw [if_pos (hacc _ _ rfl (Or.inr rfl))]
  refine ⟨hc, ?_⟩
  unfold itemsOf at hnone ⊢
  unfold updateItemQuantity createItem
  simp only [List.map_append, List.map_cons, List.map_nil, List.filter_append, if_true]
  have hleft : List.filter (fun i => decide (i.cartId = c.id ∧ i.productId = productId))
      (List.map (fun i : CartItem =>
        if i.id = t.nextCartItemId then { i with quantity := total } else i) t.cartItems)
      = [] := by
    rw [List.filter_eq_nil_iff] at hnone ⊢
    intro i hi
    rw [List.mem_map] at hi
    obtain ⟨j, hj, hji⟩ := hi
    have hjn := hnone j hj
    rw [← hji]
    split <;> exact hjn
  rw [hleft]
  simp

theorem addToCart_after_cart (accepts : Store → CartItem → Bool) (s : Store)
    (u p q : Int)
    (hc : findCart (findOrCreateCart s u).2 u = some (findOrCreateCart s u).1) :
    (addToCart accepts (findOrCreateCart s u).2 u p q).2
      = (addToCart accepts s u p q).2 := by
  rw [addToCart_of_cart accepts hc]
  unfold addToCart
  dsimp only
  cases findItemByProduct (findOrCreateCart s u).2 (findOrCreateCart s u).1.id p with
  | some e =>
    dsimp only
    cases jsAdd e.quantity q with
    | none => rfl
    | some total => dsimp only; split <;> rfl
  | none => dsimp only; split <;> rfl

/-- Counterexample to C1 as stated: in the sample store user 1 has no cart, and
adding product 7 with quantity 9007199254740991 and then with quantity 2 leaves
one row of quantity 9007199254740992, the double nearest to the sum, which is
not the sum 9007199254740993. -/
theorem addToCart_twice_rounds_sum :
    CartsIntact sampleStore ∧
      findCart sampleStore 1 = none ∧
      findCart (addToCart acceptAll
          (addToCart acceptAll sampleStore 1 7 9007199254740991).2 1 7 2).2 1
        = some ⟨2, 1⟩ ∧
      itemsOf (addToCart acceptAll
          (addToCart acceptAll sampleStore 1 7 9007199254740991).2 1 7 2).2 2 7
        = [⟨6, 2, 7, 9007199254740992⟩] ∧
      (9007199254740992 : Int) ≠ 9007199254740991 + 2 := by
  decide

/-- C1, amended: in a store whose cart tables are intact and in which the cart of
user `u` (if any) holds no item for product `p`, for quantities `q1` and `q2`
that JavaScript numbers hold exactly and whose sum is held exactly as well, and
when the store accepts rows of `p` with the quantities `q1` and `q1 + q2`,
running the `POST /cart/add` handler for `(u, p, q1)` and then for `(u, p, q2)`
ends in a store where `u` has a cart and that cart holds exactly one item for
`p`, of quantity `q1 + q2`. -/
theorem addToCart_twice_single_row (accepts : Store → CartItem → Bool) (s : Store)
    (u p q1 q2 : Int)
    (hs : CartsIntact s)
    (hnone : ∀ c, findCart s u = some c → itemsOf s c.id p = [])
    (_hq1 : IsJsInteger q1) (_hq2 : IsJsInteger q2) (hsum : IsJsInteger (q1 + q2))
    (hacc : ∀ (t : Store) (row : CartItem), row.productId = p →
      row.quantity = q1 ∨ row.quantity = q1 + q2 → accepts t row = true) :
    ∃ c item,
      findCart (addToCart accepts (addToCart accepts s u p q1).2 u p q2).2 u = some c ∧
      itemsOf (addToCart accepts (addToCart accepts s u p q1).2 u p q2).2 c.id p = [item] ∧
      item.productId = p ∧ item.quantity = q1 + q2 := by
  obtain ⟨hc, hclean⟩ := findOrCreateCart_clean s u p hs hnone
  obtain ⟨h1, h2⟩ := addToCart_twice_of_cart accepts hc hclean q1 q2 (q1 + q2)
    (jsAdd_exact hsum) hacc
  rw [addToCart_after_cart accepts s u p q1 hc] at h1 h2
  exact ⟨_, _, h1, h2, rfl, rfl⟩

/-- Witness for C1, amended: quantities 2 and 3 of product 7 added to the empty
store by user 1 give one row of quantity 5. -/
theorem addToCart_twice_single_row_witness :
    ∃ c item,
      findCart (addToCart acceptAll (addToCart acceptAll Store.empty 1 7 2).2 1 7 3).2 1
        = some c ∧
      itemsOf (addToCart acceptAll (addToCart acceptAll Store.empty 1 7 2).2 1 7 3).2 c.id 7
        = [item] ∧
      item.productId = 7 ∧ item.quantity = 2 + 3 :=
  addToCart_twice_single_row acceptAll Store.empty 1 7 2 3 (by decide) (by decide)
    (by decide) (by decide) (by decide) (fun _ _ _ _ => rfl)

/-! ### The guard and the shape of error responses -/

theorem splitBlank_of_no_blank (cs : List Char) (h : ' ' ∉ cs) : splitBlank cs = [cs] := by
  induction cs with
  | nil => rfl
  | cons c rest ih =>
    have hc : c ≠ ' ' := fun hc => h (by simp [hc])
    have hrest : ' ' ∉ rest := fun hr => h (List.mem_cons_of_mem c hr)
    simp [splitBlank, hc, ih hrest]

theorem tokenOf_bearer (t : String) (h : ' ' ∉ t.toList) :
    tokenOf ("Bearer " ++ t) = some t := by
  have hlist : ("Bearer " ++ t).toList = 'B' :: 'e' :: 'a' :: 'r' :: 'e' :: 'r' :: ' ' :: t.toList := by
    show ("Bearer " ++ t).data = _
    rw [String.data_append]
    rfl
  have hsplit : splitBlank t.data = [t.data] := splitBlank_of_no_blank t.data h
  unfold tokenOf
  rw [hlist]
  simp [splitBlank, hsplit]

theorem bearer_ne_empty (t : String) : "Bearer " ++ t ≠ "" := by
  intro h
  have hlen := congrArg String.length h
  rw [String.length_append] at hlen
  have h7 : "Bearer ".length = 7 := by decide
  have h0 : "".length = 0 := by decide
  omega

theorem authenticateToken_bearer (jw : JwtLib) (t : String) (h : ' ' ∉ t.toList) :
    authenticateToken jw (some ("Bearer " ++ t))
      = match jw.verify t secretKey with
        | none => GuardResult.reject ⟨403, Body.text "Forbidden"⟩
        | some user => GuardResult.next user := by
  unfold authenticateToken
  dsimp only
  rw [if_neg (bearer_ne_empty t), tokenOf_bearer t h]
  rfl

theorem splitBlank_append_blank (cs rest : List Char) (h : ' ' ∉ cs) :
    splitBlank (cs ++ ' ' :: rest) = cs :: splitBlank rest := by
  induction cs with
  | nil => simp [splitBlank]
  | cons c tl ih =>
    have hc : c ≠ ' ' := fun hc => h (by simp [hc])
    have htl : ' ' ∉ tl := fun hr => h (List.mem_cons_of_mem c hr)
    simp [splitBlank, hc, ih htl]

theorem tokenOf_bearer_more (t more : String) (h : ' ' ∉ t.toList) :
    tokenOf ("Bearer " ++ t ++ " " ++ more) = some t := by
  have hlist : ("Bearer " ++ t ++ " " ++ more).toList
      = 'B' :: 'e' :: 'a' :: 'r' :: 'e' :: 'r' :: ' ' :: (t.data ++ ' ' :: more.data) := by
    show ("Bearer " ++ t ++ " " ++ more).data = _
    rw [String.data_append, String.data_append, String.data_append]
    show ("Bearer ".data ++ t.data ++ [' ']) ++ more.data = _
    simp
  have hsplit := splitBlank_append_blank t.data more.data h
  unfold tokenOf
  rw [hlist]
  simp [splitBlank, hsplit]

theorem authenticateToken_of_header (jw : JwtLib) (h : String) (hne : h ≠ "") :
    authenticateToken jw (some h)
      = match (tokenOf h).bind (fun t => jw.verify t secretKey) with
        | none => GuardResult.reject ⟨403, Body.text "Forbidden"⟩
        | some user => GuardResult.next user := by
  unfold authenticateToken
  dsimp only
  rw [if_neg hne]

theorem mem_encodeNats (ns : List Nat) : ∀ c ∈ encodeNats ns, c = 'a' ∨ c = 'b' := by
  induction ns with
  | nil => intro c hc; cases hc
  | cons n rest ih =>
    intro c hc
    simp only [encodeNats, List.mem_append, List.mem_cons, List.mem_replicate] at hc
    rcases hc with ⟨_, hc⟩ | hc | hc
    · exact Or.inl hc
    · exact Or.inr hc
    · exact ih c hc

theorem decodeNatsAux_unary (n : Nat) :
    ∀ (acc : Nat) (rest : List Char),
      decodeNatsAux acc (List.replicate n 'a' ++ 'b' :: rest)
        = (acc + n) :: decodeNatsAux 0 rest := by
  induction n with
  | zero => intro acc rest; simp [decodeNatsAux]
  | succ n ih =>
    intro acc rest
    have hab : ('a' : Char) ≠ 'b' := by decide
    simp only [List.replicate_succ, List.cons_append, decodeNatsAux, if_neg hab,
      List.append_eq]
    rw [ih (acc + 1) rest]
    congr 1
    omega

theorem decodeNatsAux_encodeNats (ns : List Nat) : decodeNatsAux 0 (encodeNats ns) = ns := by
  induction ns with
  | nil => rfl
  | cons n rest ih =>
    simp only [encodeNats]
    rw [decodeNatsAux_unary n 0 (encodeNats rest), ih, Nat.zero_add]

theorem map_ofNat_toNat (cs : List Char) : (cs.map Char.toNat).map Char.ofNat = cs := by
  induction cs with
  | nil => rfl
  | cons c rest ih => simp only [List.map_cons, Char.ofNat_toNat, ih]

theorem plainParse_plainFields (c : Claims) (k : String) :
    plainParse (plainFields c k) = some (c, k) := by
  unfold plainFields plainParse
  have htake : List.take c.email.toList.length
      (c.email.toList.map Char.toNat ++ k.toList.map Char.toNat)
      = c.email.toList.map Char.toNat :=
    List.take_left' (List.length_map _ _)
  have hdrop : List.drop c.email.toList.length
      (c.email.toList.map Char.toNat ++ k.toList.map Char.toNat)
      = k.toList.map Char.toNat :=
    List.drop_left' (List.length_map _ _)
  dsimp only
  rw [htake, hdrop, map_ofNat_toNat, map_ofNat_toNat]
  have hid : (if (if c.id < 0 then 1 else 0) = 1 then -(c.id.natAbs : Int)
      else (c.id.natAbs : Int)) = c.id := by
    by_cases hneg : c.id < 0
    · simp only [if_pos hneg, if_true]
      omega
    · simp only [if_neg hneg]
      rw [if_neg (by decide)]
      omega
  rw [hid]
  rfl

theorem plainJwt_verify_sign (c : Claims) (k k2 : String) :
    plainJwt.verify (plainJwt.sign c k) k2 = if k = k2 then some c else none := by
  show (match plainParse (decodeNatsAux 0 (String.mk (encodeNats (plainFields c k))).toList)
      with
      | some (c0, k0) =>
        if k0 = k2 ∧ String.mk (encodeNats (plainFields c0 k0))
            = String.mk (encodeNats (plainFields c k)) then some c0 else none
      | none => none) = _
  have hdec : decodeNatsAux 0 (String.mk (encodeNats (plainFields c k))).toList
      = plainFields c k := decodeNatsAux_encodeNats _
  rw [hdec, plainParse_plainFields]
  dsimp only
  by_cases hk : k = k2
  · rw [if_pos ⟨hk, rfl⟩, if_pos hk]
  · rw [if_neg (fun h => hk h.1), if_neg hk]

theorem plainJwt_sign_no_blank (c : Claims) (k : String) :
    ' ' ∉ (plainJwt.sign c k).toList := by
  intro hmem
  have hab := mem_encodeNats (plainFields c k) ' ' hmem
  rcases hab with hab | hab <;> exact absurd hab (by decide)

theorem plainJwt_lawful : JwtLawful plainJwt := by
  refine ⟨plainJwt_sign_no_blank, ?_, ?_⟩
  · intro c k
    rw [plainJwt_verify_sign, if_pos rfl]
  · intro c k k2 hk
    rw [plainJwt_verify_sign, if_neg hk]

theorem plainJwt_verify_blank (t k : String) (h : ' ' ∈ t.toList) :
    plainJwt.verify t k = none := by
  show (match plainParse (decodeNatsAux 0 t.toList) with
      | some (c0, k0) =>
        if k0 = k ∧ String.mk (encodeNats (plainFields c0 k0)) = t then some c0 else none
      | none => none) = none
  cases plainParse (decodeNatsAux 0 t.toList) with
  | none => rfl
  | some ck =>
    obtain ⟨c0, k0⟩ := ck
    dsimp only
    rw [if_neg]
    rintro ⟨_, ht⟩
    rw [← ht] at h
    rcases mem_encodeNats (plainFields c0 k0) ' ' h with hab | hab <;>
      exact absurd hab (by decide)

theorem bearer_more_ne_empty (t more : String) : "Bearer " ++ t ++ " " ++ more ≠ "" := by
  intro h
  have hlen := congrArg String.length h
  rw [String.length_append, String.length_append, String.length_append] at hlen
  have h7 : "Bearer ".length = 7 := by decide
  have h0 : "".length = 0 := by decide
  omega

theorem authenticateToken_bearer_more (jw : JwtLib) (t more : String)
    (ht : ' ' ∉ t.toList) :
    authenticateToken jw (some ("Bearer " ++ t ++ " " ++ more))
      = authenticateToken jw (some ("Bearer " ++ t)) := by
  rw [authenticateToken_of_header jw _ (bearer_more_ne_empty t more),
    tokenOf_bearer_more t more ht, authenticateToken_bearer jw t ht]
  rfl

theorem authenticateToken_signed_more (jw : JwtLib) (hlaw : JwtLawful jw) (c : Claims)
    (more : String) :
    authenticateToken jw (some ("Bearer " ++ jw.sign c secretKey ++ " " ++ more))
      = GuardResult.next c := by
  rw [authenticateToken_bearer_more jw _ more (hlaw.1 c secretKey),
    authenticateToken_bearer jw _ (hlaw.1 c secretKey), hlaw.2.1 c secretKey]

theorem mem_blank_append (t more : String) : ' ' ∈ (t ++ " " ++ more).toList := by
  show ' ' ∈ (t ++ " " ++ more).data
  rw [String.data_append, String.data_append]
  simp

/-- Counterexample to C8 as stated: the token issued for user 1 followed by a
blank and further text is a corrupted token, which the library rejects, yet the
guard verifies only the part before the blank and calls `next`. -/
theorem guard_accepts_token_with_trailing_text :
    plainJwt.verify
        (issueToken plainJwt ⟨1, "Ana", "ana@toko.id", "hash:rahasia"⟩ 0 ++ " " ++ "x")
        secretKey = none ∧
      authenticateToken plainJwt
        (some ("Bearer " ++ issueToken plainJwt ⟨1, "Ana", "ana@toko.id", "hash:rahasia"⟩ 0
          ++ " " ++ "x"))
        = GuardResult.next ⟨1, "ana@toko.id", 0⟩ :=
  ⟨plainJwt_verify_blank _ secretKey (mem_blank_append _ "x"),
   authenticateToken_signed_more plainJwt plainJwt_lawful ⟨1, "ana@toko.id", 0⟩ "x"⟩

/-- C8, amended: with a token library that keeps the laws of `JwtLawful`, a
successful `POST /login` answers with the token signed for the user's id and
email under the server's secret, and the header `Authorization: Bearer <token>`
makes `authenticateToken` call `next` with `req.user` carrying that id and
email.  The guard verifies the second blank-separated field of the header only:
a header whose second field is missing or does not verify under the server's
secret, such as a token signed with another secret, is answered 403 without
calling `next`, so a protected route leaves the store as it is, while what
follows a further blank is ignored.  A request without the header, or with an
empty one, is answered 401. -/
theorem authenticateToken_login_roundtrip (L : Libs) (amb : Ambient) (s : Store)
    (email password : String) (user : User)
    (hlaw : JwtLawful L.jw)
    (hfound : findUserByEmail s email = some user)
    (hmatch : L.bc.compare password user.password = true) :
    (login L amb s email password).1
        = ⟨200, Body.json (Json.obj
            [("message", Json.str "Login successful"),
             ("token", Json.str (L.jw.sign ⟨user.id, user.email, amb.now⟩ secretKey)),
             ("user", userSummary user)])⟩ ∧
      authenticateToken L.jw
          (some ("Bearer " ++ L.jw.sign ⟨user.id, user.email, amb.now⟩ secretKey))
        = GuardResult.next ⟨user.id, user.email, amb.now⟩ ∧
      (∀ (c : Claims) (k : String), k ≠ secretKey →
        authenticateToken L.jw (some ("Bearer " ++ L.jw.sign c k))
          = GuardResult.reject ⟨403, Body.text "Forbidden"⟩) ∧
      (∀ h : String, h ≠ "" →
        (∀ t, tokenOf h = some t → L.jw.verify t secretKey = none) →
        authenticateToken L.jw (some h)
          = GuardResult.reject ⟨403, Body.text "Forbidden"⟩) ∧
      (∀ (h : String) (handler : Claims → Response × Store), h ≠ "" →
        (∀ t, tokenOf h = some t → L.jw.verify t secretKey = none) →
        guarded L.jw (some h) s handler = (⟨403, Body.text "Forbidden"⟩, s)) ∧
      (∀ t more : String, ' ' ∉ t.toList →
        authenticateToken L.jw (some ("Bearer " ++ t ++ " " ++ more))
          = authenticateToken L.jw (some ("Bearer " ++ t))) ∧
      authenticateToken L.jw none
        = GuardResult.reject (messageResponse 401 "Token is required") ∧
      authenticateToken L.jw (some "")
        = GuardResult.reject (messageResponse 401 "Token is required") := by
  obtain ⟨hblank, hround, hother⟩ := hlaw
  have hreject : ∀ h : String, h ≠ "" →
      (∀ t, tokenOf h = some t → L.jw.verify t secretKey = none) →
      authenticateToken L.jw (some h) = GuardResult.reject ⟨403, Body.text "Forbidden"⟩ := by
    intro h hne hv
    rw [authenticateToken_of_header L.jw h hne]
    cases ht : tokenOf h with
    | none => rfl
    | some t =>
      show (match L.jw.verify t secretKey with
        | none => GuardResult.reject ⟨403, Body.text "Forbidden"⟩
        | some user => GuardResult.next user) = _
      rw [hv t ht]
  refine ⟨?_, ?_, ?_, hreject, ?_, ?_, rfl, rfl⟩
  · unfold login
    rw [hfound]
    simp [hmatch, issueToken]
  · rw [authenticateToken_bearer L.jw _ (hblank _ _), hround]
  · intro c k hk
    rw [authenticateToken_bearer L.jw _ (hblank c k), hother c k secretKey hk]
  · intro h handler hne hv
    unfold guarded
    rw [hreject h hne hv]
  · intro t more ht
    exact authenticateToken_bearer_more L.jw t more ht

/-- Witness for C8, amended: user 1 of the sample store logs in and presents the
token of the lawful stand-in library. -/
theorem authenticateToken_login_roundtrip_witness :
    authenticateToken plainJwt
        (some ("Bearer " ++ plainJwt.sign ⟨1, "ana@toko.id", 0⟩ secretKey))
      = GuardResult.next ⟨1, "ana@toko.id", 0⟩ :=
  (authenticateToken_login_roundtrip plainLibs stubAmbient sampleStore
    "ana@toko.id" "rahasia" ⟨1, "Ana", "ana@toko.id", "hash:rahasia"⟩
    plainJwt_lawful (by decide) (by decide)).2.1

/-- C9, the failing input: a protected route called with a token that
does not verify is answered 403 with the plain text "Forbidden", which is an
error response and not a JSON object with a `message` field. -/
theorem guard_forbidden_not_message_only :
    (step stubLibs stubAmbient Store.empty (Request.getCart (some "Bearer rusak"))).1.isError ∧
      (step stubLibs stubAmbient Store.empty (Request.getCart (some "Bearer rusak"))).1.body
        = Body.text "Forbidden" ∧
      ¬ (step stubLibs stubAmbient Store.empty
          (Request.getCart (some "Bearer rusak"))).1.body.IsMessageOnly := by
  have h : step stubLibs stubAmbient Store.empty (Request.getCart (some "Bearer rusak"))
      = (⟨403, Body.text "Forbidden"⟩, Store.empty) := by
    rfl
  rw [h]
  refine ⟨by unfold Response.isError; decide, rfl, ?_⟩
  rintro ⟨m, hm⟩
  cases hm

theorem guard_reject_shape (jw : JwtLib) (authorization : Option String) (r : Response)
    (h : authenticateToken jw authorization = GuardResult.reject r) :
    r = messageResponse 401 "Token is required" ∨ r = ⟨403, Body.text "Forbidden"⟩ := by
  unfold authenticateToken at h
  cases authorization with
  | none =>
    simp only [GuardResult.reject.injEq] at h
    exact Or.inl h.symm
  | some hdr =>
    dsimp only at h
    split at h
    · simp only [GuardResult.reject.injEq] at h
      exact Or.inl h.symm
    · split at h
      · simp only [GuardResult.reject.injEq] at h
        exact Or.inr h.symm
      · cases h

theorem guarded_error_shape (jw : JwtLib) (authorization : Option String) (s : Store)
    (handler : Claims → Response × Store)
    (hh : ∀ user, (handler user).1.isError → (handler user).1.body.IsMessageOnly)
    (h : (guarded jw authorization s handler).1.isError) :
    (guarded jw authorization s handler).1.body.IsMessageOnly ∨
      (guarded jw authorization s handler).1 = ⟨403, Body.text "Forbidden"⟩ := by
  unfold guarded at h ⊢
  cases hg : authenticateToken jw authorization with
  | reject r =>
    rw [hg] at h
    rcases guard_reject_shape jw authorization r hg with hr | hr
    · left
      rw [hr]
      exact ⟨_, rfl⟩
    · right
      exact hr
  | next user =>
    rw [hg] at h
    exact Or.inl (hh user h)

theorem messageResponse_messageOnly (code : Nat) (m : String) :
    (messageResponse code m).body.IsMessageOnly :=
  ⟨m, rfl⟩

theorem register_error_shape (bc : BcryptLib) (amb : Ambient) (s : Store)
    (name email password : String) :
    (register bc amb s name email password).1.isError →
      (register bc amb s name email password).1.body.IsMessageOnly := by
  unfold register
  cases findUserByEmail s email with
  | some _ => intro _; exact messageResponse_messageOnly _ _
  | none => intro h; simp [Response.isError] at h

theorem login_error_shape (L : Libs) (amb : Ambient) (s : Store) (email password : String) :
    (login L amb s email password).1.isError →
      (login L amb s email password).1.body.IsMessageOnly := by
  unfold login
  cases findUserByEmail s email with
  | none => intro _; exact messageResponse_messageOnly _ _
  | some u =>
    dsimp only
    split
    · intro _; exact messageResponse_messageOnly _ _
    · intro h; simp [Response.isError] at h

theorem createProduct_error_shape (amb : Ambient) (s : Store) (b : ProductBody) :
    (createProduct amb s b).1.isError → (createProduct amb s b).1.body.IsMessageOnly := by
  unfold createProduct
  dsimp only
  split
  · intro h; simp [Response.isError] at h
  · intro _; exact messageResponse_messageOnly _ _

theorem deleteProduct_error_shape (s : Store) (id : Option Int) :
    (deleteProduct s id).1.isError → (deleteProduct s id).1.body.IsMessageOnly := by
  intro _
  unfold deleteProduct
  cases id with
  | none => exact messageResponse_messageOnly _ _
  | some pid =>
    dsimp only
    cases findProduct s pid <;> exact messageResponse_messageOnly _ _

theorem addToCart_error_shape (accepts : Store → CartItem → Bool) (s : Store)
    (userId productId quantity : Int) :
    (addToCart accepts s userId productId quantity).1.isError →
      (addToCart accepts s userId productId quantity).1.body.IsMessageOnly := by
  intro _
  unfold addToCart
  dsimp only
  cases findItemByProduct (findOrCreateCart s userId).2
      (findOrCreateCart s userId).1.id productId with
  | some e =>
    dsimp only
    cases jsAdd e.quantity quantity with
    | none => exact messageResponse_messageOnly _ _
    | some total => dsimp only; split <;> exact messageResponse_messageOnly _ _
  | none => dsimp only; split <;> exact messageResponse_messageOnly _ _

theorem getCart_error_shape (s : Store) (userId : Int) :
    (getCart s userId).1.isError → (getCart s userId).1.body.IsMessageOnly := by
  unfold getCart
  cases findCart s userId <;> (intro h; simp [Response.isError] at h)

theorem removeFromCart_error_shape (s : Store) (userId : Int) (param : Option Int) :
    (removeFromCart s userId param).1.isError →
      (removeFromCart s userId param).1.body.IsMessageOnly := by
  intro _
  unfold removeFromCart
  cases findCart s userId with
  | none => exact messageResponse_messageOnly _ _
  | some cart =>
    cases param with
    | none => exact messageResponse_messageOnly _ _
    | some id =>
      dsimp only
      cases findItemById s cart.id id <;> exact messageResponse_messageOnly _ _

end Shop
